import Mathlib

/-!
Verification of the tvm Terraform version manager (src/tvm.py) against its
natural-language specification.

The managed directory `TVM_PATH` is modelled as an association list from entry
names (basenames inside the directory) to entries; an entry is either a regular
file carrying its permission bits, or a symbolic link carrying its target path.
The transient scratch directory `TVM_PATH/tmp` is modelled separately as an
optional association list from file names to permission bits (`none` = the
directory does not exist).  Interactive prompts, the HTTP fetch, the archive
contents and environmental filesystem failures are modelled as an oracle
(`World`).  Each Python function of the source is translated into a Lean
function over this state.
-/

namespace Tvm

/-- A filesystem path as the program manipulates it: either a path directly
inside the managed directory (`TVM_PATH/<name>`), or any other path. -/
inductive Path where
  | tvm (name : String)
  | other (s : String)
deriving DecidableEq, Repr

/-- A directory entry: a regular file with its permission bits, or a symlink
with its target. -/
inductive Entry where
  | file (mode : Nat)
  | symlink (target : Path)
deriving DecidableEq, Repr

/-- The state of the managed directory: its entries keyed by basename, and the
optional `tmp` scratch subdirectory (files keyed by basename, value = mode). -/
structure FS where
  dir : List (String × Entry)
  tmp : Option (List (String × Nat))
deriving DecidableEq, Repr

/-- Remove every binding of key `n` (models deleting a directory entry). -/
def eraseKey {α : Type} (l : List (String × α)) (n : String) :
    List (String × α) :=
  l.filter (fun p => !(p.1 == n))

/-- Overwrite (or create) the binding of key `n` (models writing a file). -/
def setKey {α : Type} (l : List (String × α)) (n : String) (v : α) :
    List (String × α) :=
  eraseKey l n ++ [(n, v)]

/-- One step of symlink resolution per unit of fuel; mirrors what
`os.path.realpath` computes on the states this program manipulates. -/
def realpathAux (fs : FS) : Nat → Path → Path
  | 0, p => p
  | fuel + 1, p =>
    match p with
    | Path.tvm n =>
      match fs.dir.lookup n with
      | some (Entry.symlink t) => realpathAux fs fuel t
      | _ => p
    | _ => p

/-- `os.path.realpath`: resolve symlinks (fuel bounded by the directory size,
which bounds any chain the directory can hold). -/
def realpath (fs : FS) (p : Path) : Path :=
  realpathAux fs (fs.dir.length + 1) p

/-- Whether a path names an existing regular file without following links. -/
def isRegularFile (fs : FS) (p : Path) : Bool :=
  match p with
  | Path.tvm n =>
    match fs.dir.lookup n with
    | some (Entry.file _) => true
    | _ => false
  | Path.other _ => false

/-- `os.path.isfile`: follows symlinks, true iff the resolved path is a
regular file. -/
def isfile (fs : FS) (p : Path) : Bool :=
  isRegularFile fs (realpath fs p)

/-- `os.path.islink`: true iff the path itself is a symlink. -/
def islink (fs : FS) (p : Path) : Bool :=
  match p with
  | Path.tvm n =>
    match fs.dir.lookup n with
    | some (Entry.symlink _) => true
    | _ => false
  | Path.other _ => false

/-- `s.startswith(p)` / what a glob pattern `p*` matches, character by
character (`String.startsWith` computes the same but through byte positions
that the kernel cannot reduce). -/
def pyStartsWith (s p : String) : Bool := p.data.isPrefixOf s.data

/-- `glob.glob(f"{TVM_PATH}/terraform_*")`: every directory entry whose name
starts with `terraform_` (the trailing `*` also matches the empty string). -/
def globUnderscore (fs : FS) : List String :=
  (fs.dir.filter (fun p => pyStartsWith p.1 "terraform_")).map Prod.fst

/-- Python's `str.lower()` on the ASCII strings this program handles,
character by character (`String.toLower` computes the same but through an
accumulator that the kernel cannot reduce). -/
def pyLower (s : String) : String := ⟨s.data.map Char.toLower⟩

/-- `get_osinfo`: map `platform.system()` / `platform.machine()` to the
platform tag, or `sys.exit(1)` (modelled as `Except.error 1`) for an
unsupported OS. -/
def get_osinfo (user_os user_arch : String) : Except Nat String :=
  if user_os = "Darwin" ∨ user_os = "Linux" then
    Except.ok (pyLower user_os ++ "_" ++
      (if user_arch = "arm64" ∨ user_arch = "aarch64" then "arm64" else "amd64"))
  else Except.error 1

/-- The environment of one run: prompt answers, HTTP statuses, archive
contents (extracted file names with the permission bits recorded in the
archive) and whether the two guarded filesystem operations of
`install_terraform` raise `OSError`.  `step2Fails v = true` models
`shutil.rmtree`/`os.mkdir` on the scratch directory raising before removing
anything (the `except OSError` block prints and execution continues);
`cleanupFails v = true` models the final `shutil.rmtree` raising (also caught
and printed). -/
structure World where
  overwriteAns : String → String
  downloadAns : String → String
  fetchStatus : String → Nat
  archive : String → List (String × Nat)
  step2Fails : String → Bool
  cleanupFails : String → Bool

/-- Result of running an operation: normal return, `sys.exit(code)` after a
final message, or an uncaught exception.  Each carries the filesystem state at
that point. -/
inductive Outcome where
  | ok (fs : FS)
  | exited (code : Nat) (msg : String) (fs : FS)
  | err (exn : String) (fs : FS)
deriving DecidableEq, Repr

/-- `f"{TVM_PATH}/terraform_{version}_{osinfo}"`, as a basename. -/
def dstName (version osinfo : String) : String :=
  "terraform_" ++ version ++ "_" ++ osinfo

/-- The basename of the downloaded archive inside the scratch directory. -/
def zipName (version osinfo : String) : String :=
  dstName version osinfo ++ ".zip"

/-- The message printed before `sys.exit(1)` on HTTP status 403. -/
def invalidVersionMsg : String := "ERROR: Invalid Terraform version."

/-- The message printed before `sys.exit(1)` on any other non-200 status. -/
def fetchFailMsg (status : Nat) : String :=
  "ERROR: Request not successful. Response code: " ++ toString status

/-- Step 2 of `install_terraform`: create the scratch directory, or clear and
recreate it; `shutil.rmtree`/`os.mkdir` failures inside the `try` block are
caught and printed, leaving the directory as it was. -/
def step2 (w : World) (version : String) (fs : FS) : FS :=
  match fs.tmp with
  | none => ⟨fs.dir, some []⟩
  | some t => if w.step2Fails version then ⟨fs.dir, some t⟩ else ⟨fs.dir, some []⟩

/-- `ZipFile.extractall`: write every archive member into the scratch
directory, overwriting existing names. -/
def extractAll (entries : List (String × Nat)) (t : List (String × Nat)) :
    List (String × Nat) :=
  entries.foldl (fun acc p => setKey acc p.1 p.2) t

/-- Steps 5-8 of `install_terraform` for one version, after a 200 response:
write the archive, extract it, `chmod` the extracted `terraform` binary to
`0o755` (an uncaught `FileNotFoundError` if the archive holds no such member),
move it to its version-qualified name, and try to remove the scratch
directory (failure logged, non-fatal). -/
def afterFetch (w : World) (osinfo version : String) (fs₁ : FS) : Outcome :=
  match fs₁.tmp with
  | none => Outcome.err "FileNotFoundError" fs₁
  | some tmpFiles =>
    let tmp₂ := setKey tmpFiles (zipName version osinfo) 0o644
    let tmp₃ := extractAll (w.archive version) tmp₂
    match tmp₃.lookup "terraform" with
    | none => Outcome.err "FileNotFoundError" ⟨fs₁.dir, some tmp₃⟩
    | some _ =>
      let tmp₄ := setKey tmp₃ "terraform" 0o755
      let moved : FS :=
        ⟨setKey fs₁.dir (dstName version osinfo)
            (Entry.file ((tmp₄.lookup "terraform").getD 0)),
          some (eraseKey tmp₄ "terraform")⟩
      if w.cleanupFails version then Outcome.ok moved
      else Outcome.ok ⟨moved.dir, none⟩

/-- One iteration of the loop of `install_terraform`. -/
def installOne (w : World) (osinfo : String) (fs : FS) (version : String) :
    Outcome :=
  let proceed : Bool :=
    if isfile fs (Path.tvm (dstName version osinfo)) then
      pyLower (w.overwriteAns version) == "y" ||
        pyLower (w.overwriteAns version) == "yes"
    else true
  if proceed then
    let fs₁ := step2 w version fs
    if w.fetchStatus version == 403 then
      Outcome.exited 1 invalidVersionMsg fs₁
    else if w.fetchStatus version != 200 then
      Outcome.exited 1 (fetchFailMsg (w.fetchStatus version)) fs₁
    else afterFetch w osinfo version fs₁
  else Outcome.exited 0 "Quitting." fs

/-- `install_terraform(*versions)`: strictly sequential iterations; an exit or
uncaught exception in one iteration ends the whole batch. -/
def install_terraform (w : World) (osinfo : String) (fs : FS) :
    List String → Outcome
  | [] => Outcome.ok fs
  | v :: rest =>
    match installOne w osinfo fs v with
    | Outcome.ok fs' => install_terraform w osinfo fs' rest
    | out => out

/-- The `install` command: `get_osinfo` runs first and `sys.exit(1)` on an
unsupported platform happens before any iteration (and any network access). -/
def install_cmd (w : World) (user_os user_arch : String) (fs : FS)
    (versions : List String) : Outcome :=
  match get_osinfo user_os user_arch with
  | Except.error _ =>
    Outcome.exited 1 (user_os ++ " is not supported. Quitting.") fs
  | Except.ok osinfo => install_terraform w osinfo fs versions

/-- Result of `use_terraform`: the outcome plus whether the download prompt
was shown and whether the installer was invoked. -/
structure UseResult where
  out : Outcome
  prompted : Bool
  installed : Bool
deriving DecidableEq, Repr

/-- The symlink-switching tail of `use_terraform`: remove the existing
`terraform` path when `os.path.isfile` holds of it (this follows symlinks),
then `os.symlink`, which raises `FileExistsError` when the path still
exists. -/
def finishUse (fs : FS) (src : String) (prompted installed : Bool) :
    UseResult :=
  let fs₁ := if isfile fs (Path.tvm "terraform")
    then (⟨eraseKey fs.dir "terraform", fs.tmp⟩ : FS) else fs
  if (fs₁.dir.lookup "terraform").isSome then
    ⟨Outcome.err "FileExistsError" fs₁, prompted, installed⟩
  else
    ⟨Outcome.ok ⟨fs₁.dir ++ [("terraform", Entry.symlink (Path.tvm src))], fs₁.tmp⟩,
      prompted, installed⟩

/-- `use_terraform(version)`: install on demand (prompting first, default
yes), then repoint the `terraform` symlink. -/
def use_terraform (w : World) (osinfo : String) (fs : FS) (version : String) :
    UseResult :=
  let src := dstName version osinfo
  if isfile fs (Path.tvm src) then finishUse fs src false false
  else if pyLower (w.downloadAns version) == "n" ||
      pyLower (w.downloadAns version) == "no" then
    ⟨Outcome.exited 0 "Quitting." fs, true, false⟩
  else
    match installOne w osinfo fs version with
    | Outcome.ok fs' => finishUse fs' src true true
    | out => ⟨out, true, true⟩

/-- Result of `remove_unused`: normal completion, or the
`UnboundLocalError` raised when `symlinked_file` was never assigned (with the
state at the moment it is raised). -/
inductive RmResult where
  | ok (fs : FS)
  | nameError (fs : FS)
deriving DecidableEq, Repr

/-- The deletion loop of `remove_unused`: delete every globbed entry whose
full path differs from the resolved active target. -/
def removeLoop (fs : FS) (items : List String) (sf : Path) : FS :=
  match items with
  | [] => fs
  | n :: rest =>
    if Path.tvm n = sf then removeLoop fs rest sf
    else removeLoop ⟨eraseKey fs.dir n, fs.tmp⟩ rest sf

/-- `remove_unused`: glob `terraform_*`; `symlinked_file` is assigned only
when the `terraform` path is a symlink resolving to a regular file; the loop's
first comparison raises `UnboundLocalError` when it was not assigned. -/
def remove_unused (fs : FS) : RmResult :=
  let filelist := globUnderscore fs
  if isfile fs (Path.tvm "terraform") && islink fs (Path.tvm "terraform") then
    RmResult.ok (removeLoop fs filelist (realpath fs (Path.tvm "terraform")))
  else
    match filelist with
    | [] => RmResult.ok fs
    | _ :: _ => RmResult.nameError fs

/-- Result of `list_versions`: the rendered rows (active marker, basename), or
the `ValueError` raised by `filelist.index` when the resolved target is not
among the globbed files. -/
inductive ListResult where
  | ok (rows : List (String × String))
  | valueError
deriving DecidableEq, Repr

/-- Lexicographic comparison of character lists by code point, the order in
which Python compares strings. -/
def charListLe : List Char → List Char → Bool
  | [], _ => true
  | _ :: _, [] => false
  | a :: as, b :: bs =>
    if a < b then true
    else if b < a then false
    else charListLe as bs

/-- The comparison `sorted(..., reverse=True)` sorts by: `a` comes before `b`
iff `b ≤ a` in code-point lexicographic order. -/
def descOrder (a b : String) : Prop := charListLe b.data a.data = true

instance : DecidableRel descOrder :=
  fun a b => inferInstanceAs (Decidable (charListLe b.data a.data = true))

/-- `sorted(..., reverse=True)`: descending lexicographic order. -/
def sortedDesc (l : List String) : List String :=
  List.insertionSort descOrder l

/-- Build the rows of the table: the row at `active_index` (when defined) is
marked `"  *"`, every other row is unmarked; `i` is the index of the first
remaining row. -/
def mkRowsAux (activeIdx : Option Nat) (i : Nat) :
    List String → List (String × String)
  | [] => []
  | n :: ns =>
    ((if activeIdx = some i then "  *" else ""), n) :: mkRowsAux activeIdx (i + 1) ns

/-- `list_versions`: sort the globbed files descending, find the index of the
resolved active target when the `terraform` path is a valid symlink
(`list.index` raises `ValueError` if it is not among the files), and render
the two-column table. -/
def list_versions (fs : FS) : ListResult :=
  let filelist := sortedDesc (globUnderscore fs)
  if isfile fs (Path.tvm "terraform") && islink fs (Path.tvm "terraform") then
    match realpath fs (Path.tvm "terraform") with
    | Path.tvm a =>
      if a ∈ filelist then
        ListResult.ok (mkRowsAux (some (filelist.indexOf a)) 0 filelist)
      else ListResult.valueError
    | Path.other _ => ListResult.valueError
  else ListResult.ok (mkRowsAux none 0 filelist)

/-- A run in which every prompt is answered `y`, every fetch returns 200 and
yields an archive holding a `terraform` binary with its archived mode `0o600`,
and no guarded filesystem operation fails. -/
def wOk : World :=
  ⟨fun _ => "y", fun _ => "y", fun _ => 200, fun _ => [("terraform", 0o600)],
    fun _ => false, fun _ => false⟩

/-- A run whose fetches return 403. -/
def w403 : World :=
  ⟨fun _ => "y", fun _ => "y", fun _ => 403, fun _ => [],
    fun _ => false, fun _ => false⟩

/-- A run in which clearing and recreating the scratch directory raises
`OSError` (caught and printed by the source). -/
def wStep2Fail : World :=
  ⟨fun _ => "y", fun _ => "y", fun _ => 200, fun _ => [("terraform", 0o600)],
    fun _ => true, fun _ => false⟩

/-- A run in which every prompt is declined. -/
def wDecline : World :=
  ⟨fun _ => "N", fun _ => "n", fun _ => 200, fun _ => [("terraform", 0o600)],
    fun _ => false, fun _ => false⟩

/-- A run whose archives hold no `terraform` member. -/
def wNoBin : World :=
  ⟨fun _ => "y", fun _ => "y", fun _ => 200, fun _ => [("README", 0o644)],
    fun _ => false, fun _ => false⟩

/-- An empty managed directory. -/
def fsEmpty : FS := ⟨[], none⟩

/-- A managed directory holding one installed version and no symlink. -/
def fsOneFile : FS := ⟨[("terraform_1.4.0_linux_amd64", Entry.file 0o755)], none⟩

/-- Two installed versions with the `terraform` symlink resolving to the
1.5.0 binary. -/
def fsTwo : FS :=
  ⟨[("terraform_1.4.0_linux_amd64", Entry.file 0o755),
    ("terraform_1.5.0_linux_amd64", Entry.file 0o755),
    ("terraform", Entry.symlink (Path.tvm "terraform_1.5.0_linux_amd64"))], none⟩

/-- The 1.5.0 binary installed and the `terraform` symlink pointing at a
target that does not exist (a broken symlink). -/
def fsBroken : FS :=
  ⟨[("terraform", Entry.symlink (Path.tvm "gone")),
    ("terraform_1.5.0_linux_amd64", Entry.file 0o755)], none⟩

/-- A managed directory with a stale scratch directory left behind. -/
def fsStale : FS := ⟨[], some [("stale", 0o644)]⟩

/-- The 1.5.0 binary installed and active. -/
def fsActive : FS :=
  ⟨[("terraform_1.5.0_linux_amd64", Entry.file 0o755),
    ("terraform", Entry.symlink (Path.tvm "terraform_1.5.0_linux_amd64"))], none⟩

theorem lookup_append_of_none {α : Type} {l₁ l₂ : List (String × α)}
    {m : String} (h : l₁.lookup m = none) :
    (l₁ ++ l₂).lookup m = l₂.lookup m := by
  induction l₁ with
  | nil => simp
  | cons p t ih =>
    simp only [List.lookup, List.cons_append] at *
    cases hpm : m == p.1 with
    | true => simp [hpm] at h
    | false => simp only [hpm] at h ⊢; exact ih h

theorem lookup_append_of_some {α : Type} {l₁ l₂ : List (String × α)}
    {m : String} {v : α} (h : l₁.lookup m = some v) :
    (l₁ ++ l₂).lookup m = some v := by
  induction l₁ with
  | nil => simp at h
  | cons p t ih =>
    simp only [List.lookup, List.cons_append] at *
    cases hpm : m == p.1 with
    | true => simp only [hpm] at h ⊢; exact h
    | false => simp only [hpm] at h ⊢; exact ih h

theorem lookup_eraseKey {α : Type} (l : List (String × α)) (n m : String) :
    (eraseKey l n).lookup m = if m = n then none else l.lookup m := by
  induction l with
  | nil => simp [eraseKey]
  | cons p t ih =>
    by_cases hpn : p.1 = n
    · have hstep : eraseKey (p :: t) n = eraseKey t n := by
        simp [eraseKey, List.filter_cons, hpn]
      rw [hstep, ih]
      by_cases hmn : m = n
      · simp [hmn]
      · have hmp : (m == p.1) = false := by rw [hpn]; simp [hmn]
        simp [hmn, List.lookup, hmp]
    · have hstep : eraseKey (p :: t) n = p :: eraseKey t n := by
        simp [eraseKey, List.filter_cons, hpn]
      rw [hstep]
      simp only [List.lookup]
      cases hmp : m == p.1 with
      | true =>
        have hmn : ¬ m = n := by
          simp only [beq_iff_eq] at hmp
          rw [hmp]; exact hpn
        simp [hmn]
      | false =>
        exact ih

theorem lookup_setKey_self {α : Type} (l : List (String × α)) (n : String)
    (v : α) : (setKey l n v).lookup n = some v := by
  unfold setKey
  rw [lookup_append_of_none (by rw [lookup_eraseKey]; simp)]
  simp [List.lookup]

theorem lookup_setKey_ne {α : Type} (l : List (String × α)) (n : String)
    (v : α) {m : String} (h : m ≠ n) :
    (setKey l n v).lookup m = l.lookup m := by
  unfold setKey
  cases hl : l.lookup m with
  | some w =>
    have h₁ : (eraseKey l n).lookup m = some w := by
      rw [lookup_eraseKey]; simp [h, hl]
    rw [lookup_append_of_some h₁]
  | none =>
    rw [lookup_append_of_none (by rw [lookup_eraseKey]; simp [h, hl])]
    have hmn : (m == n) = false := by simp [h]
    simp [List.lookup, hmn]

theorem lookup_eq_none_iff {α : Type} (l : List (String × α)) (n : String) :
    l.lookup n = none ↔ n ∉ l.map Prod.fst := by
  induction l with
  | nil => simp
  | cons p t ih =>
    simp only [List.map_cons, List.mem_cons]
    cases hpn : n == p.1 with
    | true =>
      have h1 : n = p.1 := by simpa using hpn
      simp [List.lookup, hpn, h1]
    | false =>
      have h1 : n ≠ p.1 := by
        intro hc; rw [hc] at hpn; simp at hpn
      simp only [List.lookup, hpn]
      rw [ih]
      constructor
      · intro h hc
        rcases hc with hc | hc
        · exact h1 hc
        · exact h hc
      · intro h hc
        exact h (Or.inr hc)

theorem mem_of_lookup_eq_some {α : Type} {l : List (String × α)} {n : String}
    {v : α} (h : l.lookup n = some v) : (n, v) ∈ l := by
  induction l with
  | nil => simp at h
  | cons p t ih =>
    simp only [List.lookup] at h
    cases hpn : n == p.1 with
    | true =>
      simp only [hpn, Option.some.injEq] at h
      simp only [beq_iff_eq] at hpn
      rcases p with ⟨a, b⟩
      simp only at hpn h
      cases hpn
      cases h
      exact List.mem_cons_self _ _
    | false =>
      simp only [hpn] at h
      exact List.mem_cons_of_mem _ (ih h)

theorem mem_globUnderscore (fs : FS) (n : String) :
    n ∈ globUnderscore fs ↔
      (pyStartsWith n "terraform_" = true ∧ n ∈ fs.dir.map Prod.fst) := by
  simp only [globUnderscore, List.mem_map, List.mem_filter]
  constructor
  · rintro ⟨p, ⟨hmem, hpre⟩, hfst⟩
    subst hfst
    exact ⟨hpre, ⟨p, hmem, rfl⟩⟩
  · rintro ⟨hpre, p, hp, hfst⟩
    subst hfst
    exact ⟨p, ⟨hp, hpre⟩, rfl⟩

theorem realpath_of_file {fs : FS} {n : String} {m : Nat}
    (h : fs.dir.lookup n = some (Entry.file m)) :
    realpath fs (Path.tvm n) = Path.tvm n := by
  simp [realpath, realpathAux, h]

theorem realpath_link_to_file {fs : FS} {a : String} {m : Nat}
    (h1 : fs.dir.lookup "terraform" = some (Entry.symlink (Path.tvm a)))
    (h2 : fs.dir.lookup a = some (Entry.file m)) :
    realpath fs (Path.tvm "terraform") = Path.tvm a := by
  have hne : fs.dir ≠ [] := by
    intro hc; rw [hc] at h1; simp at h1
  obtain ⟨k, hk⟩ : ∃ k, fs.dir.length = k + 1 := by
    cases hd : fs.dir with
    | nil => exact absurd hd hne
    | cons x t => exact ⟨t.length, by simp [hd]⟩
  unfold realpath
  rw [hk]
  show realpathAux fs (k + 1 + 1) (Path.tvm "terraform") = Path.tvm a
  simp [realpathAux, h1, h2]

theorem isfile_of_file {fs : FS} {n : String} {m : Nat}
    (h : fs.dir.lookup n = some (Entry.file m)) :
    isfile fs (Path.tvm n) = true := by
  rw [isfile, realpath_of_file h]
  simp [isRegularFile, h]

theorem isfile_link_to_file {fs : FS} {a : String} {m : Nat}
    (h1 : fs.dir.lookup "terraform" = some (Entry.symlink (Path.tvm a)))
    (h2 : fs.dir.lookup a = some (Entry.file m)) :
    isfile fs (Path.tvm "terraform") = true := by
  rw [isfile, realpath_link_to_file h1 h2]
  simp [isRegularFile, h2]

theorem islink_of_symlink {fs : FS} {n : String} {t : Path}
    (h : fs.dir.lookup n = some (Entry.symlink t)) :
    islink fs (Path.tvm n) = true := by
  simp [islink, h]

theorem isfile_of_lookup_none {fs : FS} {n : String}
    (h : fs.dir.lookup n = none) :
    isfile fs (Path.tvm n) = false := by
  simp [isfile, realpath, realpathAux, isRegularFile, h]

theorem dstName_ne_terraform (v os : String) : dstName v os ≠ "terraform" := by
  intro h
  have hl := congrArg String.length h
  rw [dstName, String.length_append, String.length_append,
    String.length_append] at hl
  have h10 : ("terraform_" : String).length = 10 := rfl
  have h1 : ("_" : String).length = 1 := rfl
  have h9 : ("terraform" : String).length = 9 := rfl
  omega

theorem zipName_ne_terraform (v os : String) : zipName v os ≠ "terraform" := by
  intro h
  have hl := congrArg String.length h
  rw [zipName, dstName, String.length_append, String.length_append,
    String.length_append, String.length_append] at hl
  have h10 : ("terraform_" : String).length = 10 := rfl
  have h1 : ("_" : String).length = 1 := rfl
  have h4 : (".zip" : String).length = 4 := rfl
  have h9 : ("terraform" : String).length = 9 := rfl
  omega

theorem extractAll_cons (p : String × Nat) (es : List (String × Nat))
    (t : List (String × Nat)) :
    extractAll (p :: es) t = extractAll es (setKey t p.1 p.2) := rfl

theorem lookup_extractAll_isSome_of_lookup {entries t : List (String × Nat)}
    {n : String} (h : (t.lookup n).isSome) :
    ((extractAll entries t).lookup n).isSome := by
  induction entries generalizing t with
  | nil => exact h
  | cons p es ih =>
    rw [extractAll_cons]
    apply ih
    by_cases hpn : n = p.1
    · subst hpn; rw [lookup_setKey_self]; rfl
    · rw [lookup_setKey_ne _ _ _ hpn]; exact h

theorem lookup_extractAll_isSome {entries t : List (String × Nat)} {n : String}
    (h : n ∈ entries.map Prod.fst) :
    ((extractAll entries t).lookup n).isSome := by
  induction entries generalizing t with
  | nil => simp at h
  | cons p es ih =>
    rw [extractAll_cons]
    by_cases hmem : n ∈ es.map Prod.fst
    · exact ih hmem
    · have hpn : n = p.1 := by
        simp only [List.map_cons, List.mem_cons] at h
        rcases h with h | h
        · exact h
        · exact absurd h hmem
      apply lookup_extractAll_isSome_of_lookup
      subst hpn
      rw [lookup_setKey_self]
      rfl

theorem lookup_extractAll_not_mem {entries t : List (String × Nat)}
    {n : String} (h : n ∉ entries.map Prod.fst) :
    (extractAll entries t).lookup n = t.lookup n := by
  induction entries generalizing t with
  | nil => rfl
  | cons p es ih =>
    rw [extractAll_cons]
    simp only [List.map_cons, List.mem_cons] at h
    push_neg at h
    rw [ih h.2, lookup_setKey_ne _ _ _ h.1]

theorem step2_shape (w : World) (v : String) (fs : FS) :
    ∃ t, step2 w v fs = ⟨fs.dir, some t⟩ := by
  unfold step2
  cases fs.tmp with
  | none => exact ⟨[], rfl⟩
  | some t =>
    by_cases hf : w.step2Fails v
    · exact ⟨t, by simp [hf]⟩
    · exact ⟨[], by simp [hf]⟩

theorem step2_of_no_failure (w : World) (v : String) (fs : FS)
    (h : w.step2Fails v = false) : step2 w v fs = ⟨fs.dir, some []⟩ := by
  unfold step2
  cases fs.tmp with
  | none => rfl
  | some t => simp [h]

theorem afterFetch_ok (w : World) (osinfo v : String)
    (d : List (String × Entry)) (t : List (String × Nat))
    (harch : "terraform" ∈ (w.archive v).map Prod.fst) :
    ∃ t', afterFetch w osinfo v ⟨d, some t⟩
        = Outcome.ok ⟨setKey d (dstName v osinfo) (Entry.file 0o755),
            if w.cleanupFails v then some t' else none⟩ := by
  have hsome : (((extractAll (w.archive v)
      (setKey t (zipName v osinfo) 0o644))).lookup "terraform").isSome :=
    lookup_extractAll_isSome harch
  obtain ⟨mo, hmo⟩ := Option.isSome_iff_exists.mp hsome
  refine ⟨eraseKey (setKey (extractAll (w.archive v)
    (setKey t (zipName v osinfo) 0o644)) "terraform" 0o755) "terraform", ?_⟩
  simp only [afterFetch]
  rw [hmo]
  simp only [lookup_setKey_self, Option.getD_some]
  cases hcf : w.cleanupFails v with
  | true => rfl
  | false => rfl

theorem installOne_ok (w : World) (osinfo : String) (fs : FS) (v : String)
    (hans : w.overwriteAns v = "y")
    (hstatus : w.fetchStatus v = 200)
    (harch : "terraform" ∈ (w.archive v).map Prod.fst) :
    ∃ t', installOne w osinfo fs v
        = Outcome.ok ⟨setKey fs.dir (dstName v osinfo) (Entry.file 0o755),
            if w.cleanupFails v then some t' else none⟩ := by
  obtain ⟨t, ht⟩ := step2_shape w v fs
  simp only [installOne, hans, hstatus]
  have hok : ((if isfile fs (Path.tvm (dstName v osinfo)) then
      pyLower "y" == "y" || pyLower "y" == "yes"
      else true)) = true := by
    cases isfile fs (Path.tvm (dstName v osinfo)) <;> decide
  rw [hok]
  simp only [if_true]
  have h403 : ((200 : Nat) == 403) = false := by decide
  have h200 : ((200 : Nat) != 200) = false := by decide
  rw [ht]
  simp only [h403, h200, Bool.false_eq_true, if_false]
  exact afterFetch_ok w osinfo v fs.dir t harch

theorem charListLe_total :
    ∀ xs ys, charListLe xs ys = true ∨ charListLe ys xs = true
  | [], _ => Or.inl rfl
  | _ :: _, [] => Or.inr rfl
  | a :: as, b :: bs => by
    by_cases hab : a < b
    · left; simp [charListLe, hab]
    · by_cases hba : b < a
      · right; simp [charListLe, hba]
      · rcases charListLe_total as bs with h | h
        · left; simp [charListLe, hab, hba, h]
        · right; simp [charListLe, hab, hba, h]

theorem charListLe_trans :
    ∀ xs ys zs, charListLe xs ys = true → charListLe ys zs = true →
      charListLe xs zs = true
  | [], _, _ => by intros; rfl
  | _ :: _, [], _ => by intro h _; simp [charListLe] at h
  | _ :: _, _ :: _, [] => by intro _ h; simp [charListLe] at h
  | a :: as, b :: bs, c :: cs => by
    intro h1 h2
    by_cases hab : a < b
    · by_cases hbc : b < c
      · simp [charListLe, lt_trans hab hbc]
      · by_cases hcb : c < b
        · simp [charListLe, hbc, hcb] at h2
        · have hbc' : b = c := le_antisymm (not_lt.mp hcb) (not_lt.mp hbc)
          subst hbc'
          simp [charListLe, hab]
    · by_cases hba : b < a
      · simp [charListLe, hab, hba] at h1
      · have hab' : a = b := le_antisymm (not_lt.mp hba) (not_lt.mp hab)
        subst hab'
        by_cases hbc : a < c
        · simp [charListLe, hbc]
        · by_cases hcb : c < a
          · simp [charListLe, hbc, hcb] at h2
          · have hbc' : a = c := le_antisymm (not_lt.mp hcb) (not_lt.mp hbc)
            subst hbc'
            simp only [charListLe, lt_irrefl, if_false] at h1 h2 ⊢
            exact charListLe_trans as bs cs h1 h2

instance : IsTotal String descOrder :=
  ⟨fun a b => charListLe_total b.data a.data⟩

instance : IsTrans String descOrder :=
  ⟨fun _ _ _ h1 h2 => charListLe_trans _ _ _ h2 h1⟩

/-- C6: for OS values `Darwin` and `Linux` the platform resolver yields the
tag `lowercase(os) ++ "_" ++ a` where `a` is `arm64` exactly for the machine
values `arm64`/`aarch64` and `amd64` for every other machine value (a silent
fallback); for every other OS value the `install` command exits with code 1
and the unsupported-platform message, identically for every network/prompt
oracle, so before any network access. -/
theorem get_osinfo_spec (user_os user_arch : String) :
    ((user_os = "Darwin" ∨ user_os = "Linux") →
      get_osinfo user_os user_arch = Except.ok (pyLower user_os ++ "_" ++
        (if user_arch = "arm64" ∨ user_arch = "aarch64" then "arm64"
         else "amd64")))
    ∧ (user_os ≠ "Darwin" → user_os ≠ "Linux" →
      get_osinfo user_os user_arch = Except.error 1 ∧
      ∀ (w : World) (fs : FS) (versions : List String),
        install_cmd w user_os user_arch fs versions
          = Outcome.exited 1 (user_os ++ " is not supported. Quitting.") fs) := by
  constructor
  · intro h
    simp [get_osinfo, h]
  · intro h1 h2
    have hno : ¬(user_os = "Darwin" ∨ user_os = "Linux") := by
      rintro (h | h)
      · exact h1 h
      · exact h2 h
    constructor
    · simp [get_osinfo, hno]
    · intro w fs versions
      simp [install_cmd, get_osinfo, hno]

/-- Witness for C6 at `("Linux", "aarch64")` and `("Windows", "x86_64")`. -/
theorem get_osinfo_spec_witness :
    get_osinfo "Linux" "aarch64" = Except.ok "linux_arm64" ∧
    install_cmd wOk "Windows" "x86_64" fsEmpty ["1.5.0"]
      = Outcome.exited 1 "Windows is not supported. Quitting." fsEmpty := by
  constructor
  · have h := (get_osinfo_spec "Linux" "aarch64").1 (Or.inr rfl)
    rw [h]
    rfl
  · have h := ((get_osinfo_spec "Windows" "x86_64").2 (by decide)
      (by decide)).2 wOk fsEmpty ["1.5.0"]
    rw [h]
    rfl

/-- C10: when the `terraform` path does not resolve to a regular file,
`remove_unused` with at least one globbed file raises `UnboundLocalError` at
the first comparison, before any deletion, returning the directory contents
unchanged; with no globbed files it completes as a no-op. -/
theorem remove_unused_no_active_spec (fs : FS)
    (h : isfile fs (Path.tvm "terraform") = false) :
    (globUnderscore fs = [] → remove_unused fs = RmResult.ok fs)
    ∧ (globUnderscore fs ≠ [] → remove_unused fs = RmResult.nameError fs) := by
  have hb : (isfile fs (Path.tvm "terraform")
      && islink fs (Path.tvm "terraform")) = false := by
    rw [h]; rfl
  constructor
  · intro hg
    simp [remove_unused, hb, hg]
  · intro hg
    cases hgl : globUnderscore fs with
    | nil => exact absurd hgl hg
    | cons x xs => simp [remove_unused, hb, hgl]

/-- Witness for C10 at a directory with one installed version and no active
link, and at an empty directory. -/
theorem remove_unused_no_active_witness :
    isfile fsOneFile (Path.tvm "terraform") = false ∧
    remove_unused fsOneFile = RmResult.nameError fsOneFile ∧
    remove_unused fsEmpty = RmResult.ok fsEmpty := by
  refine ⟨by decide, ?_, ?_⟩
  · exact (remove_unused_no_active_spec fsOneFile (by decide)).2 (by decide)
  · exact (remove_unused_no_active_spec fsEmpty (by decide)).1 (by decide)

/-- C4: with the overwrite prompt passed and the scratch recreation
succeeding, a 403 answer exits the whole batch with code 1 and the
invalid-version message, and any other non-200 answer exits with code 1 and
the generic message carrying the raw status; in both cases the directory is
unchanged and the scratch directory holds no archive, and the two messages
are distinct for every status. -/
theorem install_fetch_failure_spec (w : World) (osinfo : String) (fs : FS)
    (v : String) (rest : List String)
    (hans : w.overwriteAns v = "y")
    (hstep2 : w.step2Fails v = false) :
    (w.fetchStatus v = 403 →
      install_terraform w osinfo fs (v :: rest)
        = Outcome.exited 1 invalidVersionMsg ⟨fs.dir, some []⟩)
    ∧ (w.fetchStatus v ≠ 200 → w.fetchStatus v ≠ 403 →
      install_terraform w osinfo fs (v :: rest)
        = Outcome.exited 1 (fetchFailMsg (w.fetchStatus v)) ⟨fs.dir, some []⟩)
    ∧ (∀ s : Nat, invalidVersionMsg ≠ fetchFailMsg s) := by
  have hok : ((if isfile fs (Path.tvm (dstName v osinfo)) then
      pyLower (w.overwriteAns v) == "y" || pyLower (w.overwriteAns v) == "yes"
      else true)) = true := by
    rw [hans]
    cases isfile fs (Path.tvm (dstName v osinfo)) <;> decide
  have hs2 := step2_of_no_failure w v fs hstep2
  refine ⟨?_, ?_, ?_⟩
  · intro h403
    have hbeq : (w.fetchStatus v == 403) = true := by simp [h403]
    have hone : installOne w osinfo fs v
        = Outcome.exited 1 invalidVersionMsg ⟨fs.dir, some []⟩ := by
      simp only [installOne, hok, if_true, hs2, hbeq]
    simp [install_terraform, hone]
  · intro hne hne403
    have hbeq : (w.fetchStatus v == 403) = false := by simp [hne403]
    have hbne : (w.fetchStatus v != 200) = true := by simp [bne, hne]
    have hone : installOne w osinfo fs v
        = Outcome.exited 1 (fetchFailMsg (w.fetchStatus v)) ⟨fs.dir, some []⟩ := by
      simp only [installOne, hok, if_true, hs2, hbeq, hbne,
        Bool.false_eq_true, if_false]
    simp [install_terraform, hone]
  · intro s h
    have hl := congrArg String.length h
    rw [invalidVersionMsg, fetchFailMsg, String.length_append] at hl
    have h33 : ("ERROR: Invalid Terraform version." : String).length = 33 := rfl
    have h46 :
      ("ERROR: Request not successful. Response code: " : String).length = 46 :=
      rfl
    omega

/-- Witness for C4 at a 403 run and at status 500. -/
theorem install_fetch_failure_witness :
    install_terraform w403 "linux_amd64" fsEmpty ["9.9.9"]
      = Outcome.exited 1 invalidVersionMsg ⟨[], some []⟩ ∧
    invalidVersionMsg ≠ fetchFailMsg 500 := by
  constructor
  · have h := (install_fetch_failure_spec w403 "linux_amd64" fsEmpty
      "9.9.9" [] rfl rfl).1 rfl
    exact h
  · exact (install_fetch_failure_spec w403 "linux_amd64" fsEmpty
      "9.9.9" [] rfl rfl).2.2 500

/-- C8: a declined overwrite prompt in `install` (any answer whose
lowercasing is neither `y` nor `yes`) and a declined download prompt in `use`
(answer lowercasing to `n` or `no`) both end the process with `sys.exit(0)`
and the message `Quitting.`, with the filesystem unchanged and no remaining
version processed, unlike the fatal errors which exit with code 1. -/
theorem decline_prompt_spec (w : World) (osinfo : String) (fs : FS)
    (v : String) (rest : List String) :
    (isfile fs (Path.tvm (dstName v osinfo)) = true →
      ¬(pyLower (w.overwriteAns v) = "y" ∨ pyLower (w.overwriteAns v) = "yes") →
      install_terraform w osinfo fs (v :: rest)
        = Outcome.exited 0 "Quitting." fs)
    ∧ (isfile fs (Path.tvm (dstName v osinfo)) = false →
      (pyLower (w.downloadAns v) = "n" ∨ pyLower (w.downloadAns v) = "no") →
      use_terraform w osinfo fs v
        = ⟨Outcome.exited 0 "Quitting." fs, true, false⟩) := by
  constructor
  · intro hisf h
    push_neg at h
    have hdecl : (pyLower (w.overwriteAns v) == "y"
        || pyLower (w.overwriteAns v) == "yes") = false := by
      simp [h.1, h.2]
    have hone : installOne w osinfo fs v = Outcome.exited 0 "Quitting." fs := by
      simp only [installOne, hisf, if_true, hdecl, Bool.false_eq_true, if_false]
    simp [install_terraform, hone]
  · intro hisf h
    have hdecl : (pyLower (w.downloadAns v) == "n"
        || pyLower (w.downloadAns v) == "no") = true := by
      rcases h with h | h <;> simp [h]
    simp only [use_terraform, hisf, Bool.false_eq_true, if_false, hdecl,
      if_true]

/-- Witness for C8: both prompts declined with answers `N` and `n`. -/
theorem decline_prompt_witness :
    install_terraform wDecline "linux_amd64" fsActive ["1.5.0"]
      = Outcome.exited 0 "Quitting." fsActive ∧
    use_terraform wDecline "linux_amd64" fsEmpty "1.5.0"
      = ⟨Outcome.exited 0 "Quitting." fsEmpty, true, false⟩ := by
  constructor
  · exact (decline_prompt_spec wDecline "linux_amd64" fsActive "1.5.0" []).1
      (by decide) (by decide)
  · exact (decline_prompt_spec wDecline "linux_amd64" fsEmpty "1.5.0" []).2
      (by decide) (by decide)

/-- C5: a successful single-version install leaves the version-qualified
binary in the managed directory with permission bits `0o755` regardless of
the mode the archive recorded, and removes the scratch directory when its
removal succeeds. -/
theorem install_success_spec (w : World) (osinfo : String) (fs : FS)
    (v : String)
    (hans : w.overwriteAns v = "y")
    (hstatus : w.fetchStatus v = 200)
    (harch : "terraform" ∈ (w.archive v).map Prod.fst)
    (hclean : w.cleanupFails v = false) :
    ∃ fs', install_terraform w osinfo fs [v] = Outcome.ok fs'
      ∧ fs'.dir.lookup (dstName v osinfo) = some (Entry.file 0o755)
      ∧ fs'.tmp = none := by
  obtain ⟨t', ht⟩ := installOne_ok w osinfo fs v hans hstatus harch
  rw [hclean] at ht
  simp only [Bool.false_eq_true, if_false] at ht
  refine ⟨⟨setKey fs.dir (dstName v osinfo) (Entry.file 0o755), none⟩, ?_, ?_, rfl⟩
  · simp [install_terraform, ht]
  · exact lookup_setKey_self _ _ _

/-- C3 counterexample: with a stale scratch directory present and
`shutil.rmtree` raising `OSError` (caught and printed by the source), the
install of 1.5.0 nevertheless completes successfully — a step-2 filesystem
error does not terminate the operation. -/
theorem install_step2_failure_cex :
    install_terraform wStep2Fail "linux_amd64" fsStale ["1.5.0"]
      = Outcome.ok ⟨[("terraform_1.5.0_linux_amd64", Entry.file 0o755)], none⟩ := by
  decide

/-- C3 amended: a failure at the fetch or extract steps aborts the entire
batch, but a filesystem error while clearing and recreating the scratch
directory (step 2) is caught and logged: the install completes for that
version and the batch proceeds with the remaining versions. -/
theorem install_failure_policy (w : World) (osinfo : String) (fs : FS)
    (v : String) (rest : List String)
    (hans : w.overwriteAns v = "y") :
    (w.step2Fails v = true → w.fetchStatus v = 200 →
      "terraform" ∈ (w.archive v).map Prod.fst →
      ∃ fs', installOne w osinfo fs v = Outcome.ok fs'
        ∧ install_terraform w osinfo fs (v :: rest)
            = install_terraform w osinfo fs' rest
        ∧ fs'.dir.lookup (dstName v osinfo) = some (Entry.file 0o755))
    ∧ (w.fetchStatus v = 200 → w.step2Fails v = false →
      "terraform" ∉ (w.archive v).map Prod.fst →
      install_terraform w osinfo fs (v :: rest)
        = Outcome.err "FileNotFoundError"
            ⟨fs.dir, some (extractAll (w.archive v)
              (setKey [] (zipName v osinfo) 0o644))⟩) := by
  constructor
  · intro _ hstatus harch
    obtain ⟨t', ht⟩ := installOne_ok w osinfo fs v hans hstatus harch
    refine ⟨_, ht, ?_, lookup_setKey_self _ _ _⟩
    simp [install_terraform, ht]
  · intro hstatus hstep2 hnomem
    have hs2 := step2_of_no_failure w v fs hstep2
    have hok : ((if isfile fs (Path.tvm (dstName v osinfo)) then
        pyLower (w.overwriteAns v) == "y" || pyLower (w.overwriteAns v) == "yes"
        else true)) = true := by
      rw [hans]
      cases isfile fs (Path.tvm (dstName v osinfo)) <;> decide
    have hnl : (extractAll (w.archive v)
        (setKey [] (zipName v osinfo) 0o644)).lookup "terraform" = none := by
      rw [lookup_extractAll_not_mem hnomem,
        lookup_setKey_ne _ _ _ (fun hc => zipName_ne_terraform v osinfo hc.symm)]
      rfl
    have hone : installOne w osinfo fs v = Outcome.err "FileNotFoundError"
        ⟨fs.dir, some (extractAll (w.archive v)
          (setKey [] (zipName v osinfo) 0o644))⟩ := by
      simp only [installOne, hok, if_true, hs2, hstatus]
      have h403 : ((200 : Nat) == 403) = false := by decide
      have h200 : ((200 : Nat) != 200) = false := by decide
      simp only [h403, h200, Bool.false_eq_true, if_false]
      simp only [afterFetch]
      rw [hnl]
    simp [install_terraform, hone]

/-- Witness for C3 (amended): the step-2 failure run still installs 1.5.0,
and a run whose archive lacks the binary aborts with `FileNotFoundError`. -/
theorem install_failure_policy_witness :
    (∃ fs', installOne wStep2Fail "linux_amd64" fsStale "1.5.0" = Outcome.ok fs'
      ∧ install_terraform wStep2Fail "linux_amd64" fsStale ["1.5.0"]
          = install_terraform wStep2Fail "linux_amd64" fs' []
      ∧ fs'.dir.lookup (dstName "1.5.0" "linux_amd64")
          = some (Entry.file 0o755)) ∧
    install_terraform wNoBin "linux_amd64" fsEmpty ["1.5.0"]
      = Outcome.err "FileNotFoundError"
          ⟨fsEmpty.dir, some (extractAll (wNoBin.archive "1.5.0")
            (setKey [] (zipName "1.5.0" "linux_amd64") 0o644))⟩ := by
  constructor
  · exact (install_failure_policy wStep2Fail "linux_amd64" fsStale "1.5.0" []
      rfl).1 rfl rfl (by decide)
  · exact (install_failure_policy wNoBin "linux_amd64" fsEmpty "1.5.0" []
      rfl).2 rfl rfl (by decide)

theorem finishUse_create (fs : FS) (src : String) (p i : Bool)
    (hln : fs.dir.lookup "terraform" = none) :
    finishUse fs src p i
      = ⟨Outcome.ok ⟨fs.dir ++ [("terraform", Entry.symlink (Path.tvm src))],
          fs.tmp⟩, p, i⟩ := by
  have hisf := isfile_of_lookup_none hln
  simp only [finishUse, hisf, Bool.false_eq_true, if_false, hln,
    Option.isSome_none, if_false]

theorem finishUse_replace (fs : FS) (src : String) (p i : Bool)
    (hisf : isfile fs (Path.tvm "terraform") = true) :
    finishUse fs src p i
      = ⟨Outcome.ok ⟨eraseKey fs.dir "terraform"
          ++ [("terraform", Entry.symlink (Path.tvm src))], fs.tmp⟩, p, i⟩ := by
  have hln : (eraseKey fs.dir "terraform").lookup "terraform" = none := by
    rw [lookup_eraseKey]; simp
  simp only [finishUse, hisf, if_true, hln, Option.isSome_none,
    Bool.false_eq_true, if_false]

theorem finishUse_blocked (fs : FS) (src : String) (p i : Bool)
    (hisf : isfile fs (Path.tvm "terraform") = false)
    (hsome : (fs.dir.lookup "terraform").isSome = true) :
    finishUse fs src p i = ⟨Outcome.err "FileExistsError" fs, p, i⟩ := by
  simp only [finishUse, hisf, Bool.false_eq_true, if_false, hsome, if_true]

/-- C2 counterexample: the `terraform` path exists as a symlink whose target
does not exist; `use` does not remove it (`os.path.isfile` follows the link
and is false) and `os.symlink` raises `FileExistsError`, so activation fails
rather than repointing the link. -/
theorem use_broken_link_cex :
    use_terraform wOk "linux_amd64" fsBroken "1.5.0"
      = ⟨Outcome.err "FileExistsError" fsBroken, false, false⟩ := by
  decide

/-- C2 amended: `use` removes the existing `terraform` path only when
`os.path.isfile` holds of it (which follows symlinks); activation succeeds
when the path is absent or resolves to a regular file, but when it exists
without resolving to a regular file (e.g. a broken symlink) nothing is
removed and `os.symlink` raises `FileExistsError`. -/
theorem use_link_replacement_spec (w : World) (osinfo : String) (fs : FS)
    (v : String) (mo : Nat)
    (hsrc : fs.dir.lookup (dstName v osinfo) = some (Entry.file mo)) :
    (fs.dir.lookup "terraform" = none →
      use_terraform w osinfo fs v
        = ⟨Outcome.ok ⟨fs.dir ++ [("terraform",
            Entry.symlink (Path.tvm (dstName v osinfo)))], fs.tmp⟩,
          false, false⟩)
    ∧ (isfile fs (Path.tvm "terraform") = true →
      use_terraform w osinfo fs v
        = ⟨Outcome.ok ⟨eraseKey fs.dir "terraform" ++ [("terraform",
            Entry.symlink (Path.tvm (dstName v osinfo)))], fs.tmp⟩,
          false, false⟩)
    ∧ ((fs.dir.lookup "terraform").isSome = true →
      isfile fs (Path.tvm "terraform") = false →
      use_terraform w osinfo fs v
        = ⟨Outcome.err "FileExistsError" fs, false, false⟩) := by
  have hisrc := isfile_of_file hsrc
  refine ⟨?_, ?_, ?_⟩
  · intro hln
    simp only [use_terraform, hisrc, if_true]
    exact finishUse_create fs _ false false hln
  · intro hisf
    simp only [use_terraform, hisrc, if_true]
    exact finishUse_replace fs _ false false hisf
  · intro hsome hisf
    simp only [use_terraform, hisrc, if_true]
    exact finishUse_blocked fs _ false false hisf hsome

/-- Witness for C2 (amended): activating 1.4.0 with no existing link creates
the symlink. -/
theorem use_link_replacement_witness :
    fsOneFile.dir.lookup (dstName "1.4.0" "linux_amd64")
      = some (Entry.file 0o755) ∧
    use_terraform wOk "linux_amd64" fsOneFile "1.4.0"
      = ⟨Outcome.ok ⟨fsOneFile.dir ++ [("terraform",
          Entry.symlink (Path.tvm (dstName "1.4.0" "linux_amd64")))],
          fsOneFile.tmp⟩, false, false⟩ := by
  refine ⟨rfl, ?_⟩
  exact (use_link_replacement_spec wOk "linux_amd64" fsOneFile "1.4.0" 0o755
    rfl).1 rfl

/-- Witness for C5: install 1.5.0 into an empty directory from an archive
whose recorded mode is `0o600`. -/
theorem install_success_witness :
    wOk.fetchStatus "1.5.0" = 200 ∧
    (∃ fs', install_terraform wOk "linux_amd64" fsEmpty ["1.5.0"]
        = Outcome.ok fs'
      ∧ fs'.dir.lookup (dstName "1.5.0" "linux_amd64")
          = some (Entry.file 0o755)
      ∧ fs'.tmp = none) :=
  ⟨rfl, install_success_spec wOk "linux_amd64" fsEmpty "1.5.0" rfl rfl
    (by decide) rfl⟩

theorem removeLoop_lookup (items : List String) (fs : FS) (sf : Path)
    (n : String) :
    (removeLoop fs items sf).dir.lookup n =
      if n ∈ items ∧ Path.tvm n ≠ sf then none else fs.dir.lookup n := by
  induction items generalizing fs with
  | nil => simp [removeLoop]
  | cons m rest ih =>
    simp only [removeLoop]
    by_cases hm : Path.tvm m = sf
    · rw [if_pos hm, ih]
      have hiff : (n ∈ rest ∧ Path.tvm n ≠ sf) ↔
          (n ∈ m :: rest ∧ Path.tvm n ≠ sf) := by
        constructor
        · rintro ⟨ha, hb⟩; exact ⟨List.mem_cons_of_mem _ ha, hb⟩
        · rintro ⟨ha, hb⟩
          rcases List.mem_cons.mp ha with ha | ha
          · exact absurd (by rw [ha]; exact hm) hb
          · exact ⟨ha, hb⟩
      rw [if_congr hiff rfl rfl]
    · rw [if_neg hm, ih]
      by_cases hnm : n = m
      · subst hnm
        have hrhs : n ∈ n :: rest ∧ Path.tvm n ≠ sf :=
          ⟨List.mem_cons_self _ _, hm⟩
        rw [if_pos hrhs]
        by_cases hc : n ∈ rest ∧ Path.tvm n ≠ sf
        · rw [if_pos hc]
        · rw [if_neg hc]
          show (eraseKey fs.dir n).lookup n = none
          rw [lookup_eraseKey]; simp
      · have hin : ((⟨eraseKey fs.dir m, fs.tmp⟩ : FS)).dir.lookup n
            = fs.dir.lookup n := by
          show (eraseKey fs.dir m).lookup n = _
          rw [lookup_eraseKey]; simp [hnm]
        rw [hin]
        have hiff : (n ∈ rest ∧ Path.tvm n ≠ sf) ↔
            (n ∈ m :: rest ∧ Path.tvm n ≠ sf) := by
          constructor
          · rintro ⟨ha, hb⟩; exact ⟨List.mem_cons_of_mem _ ha, hb⟩
          · rintro ⟨ha, hb⟩
            rcases List.mem_cons.mp ha with ha | ha
            · exact absurd ha hnm
            · exact ⟨ha, hb⟩
        rw [if_congr hiff rfl rfl]

/-- C1: when the `terraform` path is a symlink resolving to the regular file
`a`, `remove_unused` completes normally and deletes exactly the globbed
`terraform_`-prefixed entries other than `a`: afterwards a name resolves to
`none` iff it is a `terraform_`-prefixed name other than `a`, and every other
entry — in particular the active file `a` and the `terraform` symlink
itself — is untouched. -/
theorem remove_unused_spec (fs : FS) (a : String) (m : Nat)
    (h1 : fs.dir.lookup "terraform" = some (Entry.symlink (Path.tvm a)))
    (h2 : fs.dir.lookup a = some (Entry.file m)) :
    ∃ fs', remove_unused fs = RmResult.ok fs'
      ∧ ∀ n, fs'.dir.lookup n =
          if pyStartsWith n "terraform_" = true ∧ n ≠ a then none
          else fs.dir.lookup n := by
  have hisf := isfile_link_to_file h1 h2
  have hisl := islink_of_symlink h1
  have hrp := realpath_link_to_file h1 h2
  refine ⟨removeLoop fs (globUnderscore fs)
    (realpath fs (Path.tvm "terraform")), ?_, ?_⟩
  · simp [remove_unused, hisf, hisl]
  · intro n
    rw [removeLoop_lookup, hrp]
    split_ifs with hA hB hB
    · rfl
    · exfalso
      apply hB
      rcases hA with ⟨hg, hne⟩
      refine ⟨((mem_globUnderscore fs n).1 hg).1, ?_⟩
      intro hc
      exact hne (by rw [hc])
    · rcases hB with ⟨hsw, hna⟩
      by_cases hmem : n ∈ fs.dir.map Prod.fst
      · exact absurd ⟨(mem_globUnderscore fs n).2 ⟨hsw, hmem⟩,
          by simp [hna]⟩ hA
      · exact (lookup_eq_none_iff _ _).2 hmem
    · rfl

/-- Witness for C1: two installed versions, 1.5.0 active. -/
theorem remove_unused_spec_witness :
    fsTwo.dir.lookup "terraform"
      = some (Entry.symlink (Path.tvm "terraform_1.5.0_linux_amd64")) ∧
    (∃ fs', remove_unused fsTwo = RmResult.ok fs'
      ∧ ∀ n, fs'.dir.lookup n =
          if pyStartsWith n "terraform_" = true
              ∧ n ≠ "terraform_1.5.0_linux_amd64" then none
          else fsTwo.dir.lookup n) :=
  ⟨rfl, remove_unused_spec fsTwo "terraform_1.5.0_linux_amd64" 0o755 rfl rfl⟩

theorem afterLink_resolves (d : List (String × Entry))
    (tm : Option (List (String × Nat))) (src : String) (mo : Nat)
    (hln : d.lookup "terraform" = none)
    (hsrc : d.lookup src = some (Entry.file mo)) :
    realpath (⟨d ++ [("terraform", Entry.symlink (Path.tvm src))], tm⟩ : FS)
        (Path.tvm "terraform") = Path.tvm src
    ∧ ((⟨d ++ [("terraform", Entry.symlink (Path.tvm src))], tm⟩ : FS)).dir.lookup
        "terraform" = some (Entry.symlink (Path.tvm src))
    ∧ ((⟨d ++ [("terraform", Entry.symlink (Path.tvm src))], tm⟩ : FS)).dir.lookup
        src = some (Entry.file mo) := by
  have hl1 : ((⟨d ++ [("terraform", Entry.symlink (Path.tvm src))], tm⟩ :
      FS)).dir.lookup "terraform" = some (Entry.symlink (Path.tvm src)) := by
    show (d ++ _).lookup "terraform" = _
    rw [lookup_append_of_none hln]
    simp [List.lookup]
  have hl2 : ((⟨d ++ [("terraform", Entry.symlink (Path.tvm src))], tm⟩ :
      FS)).dir.lookup src = some (Entry.file mo) := by
    show (d ++ _).lookup src = _
    exact lookup_append_of_some hsrc
  exact ⟨realpath_link_to_file hl1 hl2, hl1, hl2⟩

theorem use_on_installed (w : World) (osinfo v : String)
    (d : List (String × Entry)) (tm : Option (List (String × Nat))) (mo₀ : Nat)
    (hsrc : d.lookup (dstName v osinfo) = some (Entry.file mo₀))
    (hlink : d.lookup "terraform" = none ∨
      ∃ b mo, d.lookup "terraform" = some (Entry.symlink (Path.tvm b))
        ∧ d.lookup b = some (Entry.file mo)) :
    ∃ fs₂, use_terraform w osinfo ⟨d, tm⟩ v = ⟨Outcome.ok fs₂, false, false⟩
      ∧ realpath fs₂ (Path.tvm "terraform") = Path.tvm (dstName v osinfo)
      ∧ fs₂.dir.lookup (dstName v osinfo) = some (Entry.file mo₀)
      ∧ fs₂.dir.lookup "terraform"
          = some (Entry.symlink (Path.tvm (dstName v osinfo))) := by
  have hsrc' : ((⟨d, tm⟩ : FS)).dir.lookup (dstName v osinfo)
      = some (Entry.file mo₀) := hsrc
  have hisrc : isfile (⟨d, tm⟩ : FS) (Path.tvm (dstName v osinfo)) = true :=
    isfile_of_file hsrc'
  rcases hlink with hnone | ⟨b, mo, hb1, hb2⟩
  · have hln : ((⟨d, tm⟩ : FS)).dir.lookup "terraform" = none := hnone
    obtain ⟨hrp, hlnk, hld⟩ :=
      afterLink_resolves d tm (dstName v osinfo) mo₀ hnone hsrc
    refine ⟨_, ?_, hrp, hld, hlnk⟩
    simp only [use_terraform, hisrc, if_true]
    exact finishUse_create _ _ false false hln
  · have hb1' : ((⟨d, tm⟩ : FS)).dir.lookup "terraform"
        = some (Entry.symlink (Path.tvm b)) := hb1
    have hb2' : ((⟨d, tm⟩ : FS)).dir.lookup b = some (Entry.file mo) := hb2
    have hisf : isfile (⟨d, tm⟩ : FS) (Path.tvm "terraform") = true :=
      isfile_link_to_file hb1' hb2'
    have hln : (eraseKey d "terraform").lookup "terraform" = none := by
      rw [lookup_eraseKey]; simp
    have hsrc2 : (eraseKey d "terraform").lookup (dstName v osinfo)
        = some (Entry.file mo₀) := by
      rw [lookup_eraseKey]
      simp [dstName_ne_terraform v osinfo, hsrc]
    obtain ⟨hrp, hlnk, hld⟩ :=
      afterLink_resolves (eraseKey d "terraform") tm (dstName v osinfo) mo₀
        hln hsrc2
    refine ⟨_, ?_, hrp, hld, hlnk⟩
    simp only [use_terraform, hisrc, if_true]
    exact finishUse_replace _ _ false false hisf

/-- C7: after a successful `install(v)`, `use(v)` succeeds and the resolved
target of the `terraform` symlink is the installed file's path (for every
start state whose `terraform` entry is absent or a symlink resolving to a
regular file); and `use(v)` when `v` is already active shows no download
prompt, never invokes the installer, and leaves the resolved symlink target
unchanged. -/
theorem use_after_install_spec (w : World) (osinfo v : String) :
    (∀ fs : FS,
      w.overwriteAns v = "y" →
      w.fetchStatus v = 200 →
      "terraform" ∈ (w.archive v).map Prod.fst →
      (fs.dir.lookup "terraform" = none ∨
        ∃ b x, fs.dir.lookup "terraform" = some (Entry.symlink (Path.tvm b))
          ∧ fs.dir.lookup b = some (Entry.file x)) →
      ∃ fs₁ fs₂, installOne w osinfo fs v = Outcome.ok fs₁
        ∧ use_terraform w osinfo fs₁ v = ⟨Outcome.ok fs₂, false, false⟩
        ∧ realpath fs₂ (Path.tvm "terraform") = Path.tvm (dstName v osinfo)
        ∧ fs₂.dir.lookup (dstName v osinfo) = some (Entry.file 0o755))
    ∧ (∀ (fs : FS) (x : Nat),
      fs.dir.lookup "terraform"
        = some (Entry.symlink (Path.tvm (dstName v osinfo))) →
      fs.dir.lookup (dstName v osinfo) = some (Entry.file x) →
      ∃ fs₂, use_terraform w osinfo fs v = ⟨Outcome.ok fs₂, false, false⟩
        ∧ fs₂.dir.lookup "terraform"
            = some (Entry.symlink (Path.tvm (dstName v osinfo)))
        ∧ realpath fs₂ (Path.tvm "terraform")
            = realpath fs (Path.tvm "terraform")) := by
  constructor
  · intro fs hans hstatus harch hlink
    obtain ⟨t', ht⟩ := installOne_ok w osinfo fs v hans hstatus harch
    have hlsrc : (setKey fs.dir (dstName v osinfo)
        (Entry.file 0o755)).lookup (dstName v osinfo)
        = some (Entry.file 0o755) := lookup_setKey_self _ _ _
    have hlT : (setKey fs.dir (dstName v osinfo)
        (Entry.file 0o755)).lookup "terraform" = fs.dir.lookup "terraform" :=
      lookup_setKey_ne _ _ _ (fun hc => dstName_ne_terraform v osinfo hc.symm)
    have hlink1 : (setKey fs.dir (dstName v osinfo)
          (Entry.file 0o755)).lookup "terraform" = none ∨
        ∃ b mo, (setKey fs.dir (dstName v osinfo)
            (Entry.file 0o755)).lookup "terraform"
            = some (Entry.symlink (Path.tvm b))
          ∧ (setKey fs.dir (dstName v osinfo)
              (Entry.file 0o755)).lookup b = some (Entry.file mo) := by
      rcases hlink with hnone | ⟨b, x, hb1, hb2⟩
      · exact Or.inl (by rw [hlT, hnone])
      · refine Or.inr ⟨b, ?_⟩
        by_cases hbd : b = dstName v osinfo
        · subst hbd
          exact ⟨0o755, by rw [hlT]; exact hb1, hlsrc⟩
        · exact ⟨x, by rw [hlT]; exact hb1,
            by rw [lookup_setKey_ne _ _ _ hbd]; exact hb2⟩
    obtain ⟨fs₂, huse, hrp, hld, _⟩ := use_on_installed w osinfo v
      (setKey fs.dir (dstName v osinfo) (Entry.file 0o755))
      (if w.cleanupFails v then some t' else none) 0o755 hlsrc hlink1
    exact ⟨_, fs₂, ht, huse, hrp, hld⟩
  · intro fs x h1 h2
    obtain ⟨fs₂, huse, hrp, _, hlnk⟩ := use_on_installed w osinfo v
      fs.dir fs.tmp x h2 (Or.inr ⟨dstName v osinfo, x, h1, h2⟩)
    refine ⟨fs₂, huse, hlnk, ?_⟩
    rw [hrp, realpath_link_to_file h1 h2]

/-- Witness for C7: install then use 1.5.0 into an empty directory, and
re-use 1.5.0 when it is already active. -/
theorem use_after_install_witness :
    (∃ fs₁ fs₂, installOne wOk "linux_amd64" fsEmpty "1.5.0" = Outcome.ok fs₁
      ∧ use_terraform wOk "linux_amd64" fs₁ "1.5.0"
          = ⟨Outcome.ok fs₂, false, false⟩
      ∧ realpath fs₂ (Path.tvm "terraform")
          = Path.tvm (dstName "1.5.0" "linux_amd64")
      ∧ fs₂.dir.lookup (dstName "1.5.0" "linux_amd64")
          = some (Entry.file 0o755)) ∧
    (∃ fs₂, use_terraform wOk "linux_amd64" fsActive "1.5.0"
        = ⟨Outcome.ok fs₂, false, false⟩
      ∧ fs₂.dir.lookup "terraform"
          = some (Entry.symlink (Path.tvm (dstName "1.5.0" "linux_amd64")))
      ∧ realpath fs₂ (Path.tvm "terraform")
          = realpath fsActive (Path.tvm "terraform")) := by
  constructor
  · exact (use_after_install_spec wOk "linux_amd64" "1.5.0").1 fsEmpty rfl rfl
      (by decide) (Or.inl rfl)
  · exact (use_after_install_spec wOk "linux_amd64" "1.5.0").2 fsActive 0o755
      rfl rfl

theorem mkRowsAux_map_snd (aidx : Option Nat) (i : Nat) (l : List String) :
    (mkRowsAux aidx i l).map Prod.snd = l := by
  induction l generalizing i with
  | nil => rfl
  | cons n ns ih => simp [mkRowsAux, ih]

theorem mkRowsAux_none_unmarked (i : Nat) (l : List String) :
    ∀ r ∈ mkRowsAux none i l, r.1 = "" := by
  induction l generalizing i with
  | nil => intro r hr; simp [mkRowsAux] at hr
  | cons n ns ih =>
    intro r hr
    simp only [mkRowsAux, List.mem_cons] at hr
    rcases hr with hr | hr
    · rw [hr]; simp
    · exact ih (i + 1) r hr

theorem mkRowsAux_filter_lt (l : List String) (i k : Nat) (hk : k < i) :
    (mkRowsAux (some k) i l).filter (fun r => r.1 == "  *") = [] := by
  induction l generalizing i with
  | nil => rfl
  | cons n ns ih =>
    have hki : ¬ (some k = some i) := by simp; omega
    simp only [mkRowsAux, if_neg hki, List.filter_cons]
    simp only [show (("" : String) == "  *") = false from rfl,
      Bool.false_eq_true, if_false]
    exact ih (i + 1) (by omega)

theorem mkRowsAux_filter_star (l : List String) (i : Nat) (a : String)
    (ha : a ∈ l) :
    ((mkRowsAux (some (i + l.indexOf a)) i l).filter
      (fun r => r.1 == "  *")).map Prod.snd = [a] := by
  induction l generalizing i with
  | nil => simp at ha
  | cons n ns ih =>
    by_cases hna : a = n
    · subst hna
      rw [List.indexOf_cons_self]
      simp only [Nat.add_zero, mkRowsAux, if_pos rfl, List.filter_cons]
      simp only [show (("  *" : String) == "  *") = true from rfl, if_true]
      rw [mkRowsAux_filter_lt ns (i + 1) i (by omega)]
      rfl
    · have hin : a ∈ ns := by
        rcases List.mem_cons.mp ha with h | h
        · exact absurd h hna
        · exact h
      rw [List.indexOf_cons_ne _ (fun hc => hna hc.symm)]
      simp only [mkRowsAux]
      rw [if_neg (by simp)]
      simp only [List.filter_cons,
        show (("" : String) == "  *") = false from rfl,
        Bool.false_eq_true, if_false]
      have harr : i + (ns.indexOf a).succ = (i + 1) + ns.indexOf a := by omega
      rw [harr]
      exact ih (i + 1) hin

/-- C9: when the `terraform` path is a symlink resolving to the installed
file `a` (a globbed name), `list_versions` renders rows whose name column is
a permutation of the globbed names in descending lexicographic order, and
exactly the row named `a` is marked active; when the path is absent or does
not resolve, the same rows are rendered with no row marked. -/
theorem list_versions_spec (fs : FS) :
    (∀ a m, fs.dir.lookup "terraform" = some (Entry.symlink (Path.tvm a)) →
      fs.dir.lookup a = some (Entry.file m) →
      pyStartsWith a "terraform_" = true →
      ∃ rows, list_versions fs = ListResult.ok rows
        ∧ (rows.map Prod.snd).Perm (globUnderscore fs)
        ∧ List.Sorted descOrder (rows.map Prod.snd)
        ∧ (rows.filter (fun r => r.1 == "  *")).map Prod.snd = [a])
    ∧ ((isfile fs (Path.tvm "terraform")
        && islink fs (Path.tvm "terraform")) = false →
      ∃ rows, list_versions fs = ListResult.ok rows
        ∧ (rows.map Prod.snd).Perm (globUnderscore fs)
        ∧ List.Sorted descOrder (rows.map Prod.snd)
        ∧ ∀ r ∈ rows, r.1 = "") := by
  constructor
  · intro a m h1 h2 hsw
    have hisf := isfile_link_to_file h1 h2
    have hisl := islink_of_symlink h1
    have hrp := realpath_link_to_file h1 h2
    have hmem : a ∈ sortedDesc (globUnderscore fs) := by
      rw [sortedDesc, List.mem_insertionSort]
      refine (mem_globUnderscore fs a).2 ⟨hsw, ?_⟩
      exact List.mem_map.2 ⟨(a, Entry.file m), mem_of_lookup_eq_some h2, rfl⟩
    refine ⟨mkRowsAux (some ((sortedDesc (globUnderscore fs)).indexOf a)) 0
      (sortedDesc (globUnderscore fs)), ?_, ?_, ?_, ?_⟩
    · simp only [list_versions, hisf, hisl, Bool.and_self, if_true, hrp]
      rw [if_pos hmem]
    · rw [mkRowsAux_map_snd]
      exact List.perm_insertionSort descOrder _
    · rw [mkRowsAux_map_snd]
      exact List.sorted_insertionSort descOrder _
    · have h := mkRowsAux_filter_star (sortedDesc (globUnderscore fs)) 0 a hmem
      simpa using h
  · intro hne
    refine ⟨mkRowsAux none 0 (sortedDesc (globUnderscore fs)), ?_, ?_, ?_, ?_⟩
    · simp only [list_versions, hne, Bool.false_eq_true, if_false]
    · rw [mkRowsAux_map_snd]
      exact List.perm_insertionSort descOrder _
    · rw [mkRowsAux_map_snd]
      exact List.sorted_insertionSort descOrder _
    · exact mkRowsAux_none_unmarked 0 _

/-- Witness for C9: two installed versions, 1.5.0 active. -/
theorem list_versions_witness :
    fsTwo.dir.lookup "terraform"
      = some (Entry.symlink (Path.tvm "terraform_1.5.0_linux_amd64")) ∧
    (∃ rows, list_versions fsTwo = ListResult.ok rows
      ∧ (rows.map Prod.snd).Perm (globUnderscore fsTwo)
      ∧ List.Sorted descOrder (rows.map Prod.snd)
      ∧ (rows.filter (fun r => r.1 == "  *")).map Prod.snd
          = ["terraform_1.5.0_linux_amd64"]) :=
  ⟨rfl, (list_versions_spec fsTwo).1 "terraform_1.5.0_linux_amd64" 0o755
    rfl rfl (by decide)⟩

end Tvm
